import Mathlib

/-!
Verification development for the BhashaChat conversation backend
(`src/main.py`).  The Python source is shallowly embedded: strings are
`String`/`List Char`, the mutable `ConversationManager` object becomes a
structure threaded through pure functions, the outbound LLM calls become an
oracle `String → Option String` (`none` models a raised exception), and the
process-wide `conversations` dict becomes a finite-map-like function
`String → Option ConversationManager`.

`json.loads` / `json.dumps` from the Python standard library are modelled by
an executable recursive-descent decoder / encoder over a `Json` value type.
JSON numbers are modelled as integers (no claim involves floating point);
everything else (objects with last-occurrence-wins duplicate keys, arrays,
strings with escapes, booleans, null, whitespace, trailing-garbage
rejection) follows `json.loads`.
-/

namespace BhashaChat

/-! ### Character-level helpers modelling Python `str` operations -/

/-- The backquote character. -/
def btick : Char := Char.ofNat 96

/-- The opening curly brace character. -/
def lbrace : Char := Char.ofNat 123

/-- The closing curly brace character. -/
def rbrace : Char := Char.ofNat 125

/-- ASCII whitespace recognised by Python `str.strip()` (the Unicode-only
whitespace code points never occur in the texts the claims touch). -/
def isPySpace (c : Char) : Bool :=
  c = ' ' || c = '\t' || c = '\n' || c = '\r' || c = Char.ofNat 11 || c = Char.ofNat 12

/-- Left part of Python `str.strip()`. -/
def stripL (l : List Char) : List Char := l.dropWhile isPySpace

/-- Right part of Python `str.strip()`. -/
def stripR (l : List Char) : List Char := (l.reverse.dropWhile isPySpace).reverse

/-- Python `str.strip()` with no argument. -/
def pyStrip (l : List Char) : List Char := stripR (stripL l)

/-- Python `str.strip()` on `String`. -/
def pyStripS (s : String) : String := String.mk (pyStrip s.data)

/-- Python `str.lower()` (ASCII case mapping; all identifiers that reach it
in the claims are ASCII). -/
def pyLower (s : String) : String := String.mk (s.data.map Char.toLower)

/-- Python `str.upper()` (ASCII case mapping). -/
def pyUpper (s : String) : String := String.mk (s.data.map Char.toUpper)

/-- Does the second list start with the first one? -/
def startsWith : List Char → List Char → Bool
  | [], _ => true
  | _ :: _, [] => false
  | p :: ps, c :: cs => p == c && startsWith ps cs

/-- Python substring containment `needle in hay`. -/
def isSubstr (n : List Char) : List Char → Bool
  | [] => startsWith n []
  | c :: rest => startsWith n (c :: rest) || isSubstr n rest

/-- Worker for `replaceAll`, with explicit fuel; every step consumes at least
one character, so fuel equal to the input length is always sufficient. -/
def replaceAllGo (pat : List Char) : Nat → List Char → List Char
  | 0, l => l
  | Nat.succ fuel, l =>
    match l with
    | [] => []
    | c :: rest =>
      if startsWith pat (c :: rest) && !pat.isEmpty then
        replaceAllGo pat fuel (rest.drop (pat.length - 1))
      else
        c :: replaceAllGo pat fuel rest

/-- Python `str.replace(pat, '')`: delete every non-overlapping occurrence of
`pat`, scanning left to right. -/
def replaceAll (pat : List Char) (l : List Char) : List Char :=
  replaceAllGo pat l.length l

/-! ### JSON values and a model of `json.loads` -/

/-- JSON values as produced by `json.loads`, with numbers restricted to
integers (sufficient for every claim).  Objects are insertion-ordered lists
of members with distinct keys (duplicates collapse, last value wins, as in
Python dicts). -/
inductive Json where
  | null : Json
  | bool (b : Bool) : Json
  | num (n : Int) : Json
  | str (s : List Char) : Json
  | arr (elems : List Json) : Json
  | obj (members : List (List Char × Json)) : Json

/-- JSON structural whitespace. -/
def isJsonWs (c : Char) : Bool := c = ' ' || c = '\t' || c = '\n' || c = '\r'

/-- Value of a hexadecimal digit. -/
def hexVal (c : Char) : Option Nat :=
  if '0' ≤ c ∧ c ≤ '9' then some (c.toNat - '0'.toNat)
  else if 'a' ≤ c ∧ c ≤ 'f' then some (c.toNat - 'a'.toNat + 10)
  else if 'A' ≤ c ∧ c ≤ 'F' then some (c.toNat - 'A'.toNat + 10)
  else none

/-- Value of a four-digit hexadecimal escape. -/
def hex4 (a b c d : Char) : Option Nat := do
  let va ← hexVal a
  let vb ← hexVal b
  let vc ← hexVal c
  let vd ← hexVal d
  pure (va * 4096 + vb * 256 + vc * 16 + vd)

/-- Single-character JSON escapes. -/
def escChar (c : Char) : Option Char :=
  if c = '"' then some '"'
  else if c = '\\' then some '\\'
  else if c = '/' then some '/'
  else if c = 'b' then some (Char.ofNat 8)
  else if c = 'f' then some (Char.ofNat 12)
  else if c = 'n' then some '\n'
  else if c = 'r' then some '\r'
  else if c = 't' then some '\t'
  else none

/-- Body of a JSON string literal, after the opening quote: returns the
decoded characters and the remaining input.  Surrogate pairs in `\u` escapes
are combined; a lone surrogate or a raw control character is rejected. -/
def parseStringBody : List Char → Option (List Char × List Char)
  | [] => none
  | c :: rest =>
    if c = '"' then some ([], rest)
    else if c = '\\' then
      match rest with
      | 'u' :: h1 :: h2 :: h3 :: h4 :: rest2 =>
        match hex4 h1 h2 h3 h4 with
        | none => none
        | some code =>
          if 0xD800 ≤ code ∧ code < 0xDC00 then
            match rest2 with
            | '\\' :: 'u' :: k1 :: k2 :: k3 :: k4 :: rest3 =>
              match hex4 k1 k2 k3 k4 with
              | none => none
              | some low =>
                if 0xDC00 ≤ low ∧ low < 0xE000 then
                  (parseStringBody rest3).map fun p =>
                    (Char.ofNat (0x10000 + (code - 0xD800) * 1024 + (low - 0xDC00)) :: p.1, p.2)
                else none
            | _ => none
          else if 0xDC00 ≤ code ∧ code < 0xE000 then none
          else (parseStringBody rest2).map fun p => (Char.ofNat code :: p.1, p.2)
      | e :: rest2 =>
        match escChar e with
        | none => none
        | some ec => (parseStringBody rest2).map fun p => (ec :: p.1, p.2)
      | [] => none
    else if c.toNat < 32 then none
    else (parseStringBody rest).map fun p => (c :: p.1, p.2)

/-- Leading decimal digits of the input. -/
def takeDigits : List Char → (List Char × List Char)
  | [] => ([], [])
  | c :: rest =>
    if '0' ≤ c ∧ c ≤ '9' then
      let p := takeDigits rest
      (c :: p.1, p.2)
    else ([], c :: rest)

/-- Numeric value of a digit string. -/
def digitsToNat (l : List Char) : Nat :=
  l.foldl (fun acc c => acc * 10 + (c.toNat - '0'.toNat)) 0

/-- A JSON integer literal (floats are rejected; see the module comment). -/
def parseNumber (l : List Char) : Option (Json × List Char) :=
  let (neg, l1) := match l with
    | '-' :: t => (true, t)
    | t => (false, t)
  match takeDigits l1 with
  | ([], _) => none
  | (ds, rest) =>
    if ds.length > 1 ∧ ds.headD ' ' = '0' then none
    else match rest with
      | c :: _ => if c = '.' ∨ c = 'e' ∨ c = 'E' then none
          else some (Json.num (if neg then -(digitsToNat ds : Int) else (digitsToNat ds : Int)), rest)
      | [] => some (Json.num (if neg then -(digitsToNat ds : Int) else (digitsToNat ds : Int)), rest)

/-- Insert a member into an object, Python-dict style: an existing key keeps
its position and takes the new value, a new key is appended. -/
def insertMember : List (List Char × Json) → List Char → Json → List (List Char × Json)
  | [], k, v => [(k, v)]
  | (k0, v0) :: rest, k, v =>
    if k0 = k then (k0, v) :: rest else (k0, v0) :: insertMember rest k v

mutual

/-- A JSON value, with explicit fuel (the callers supply more fuel than the
input length, which bounds the recursion). -/
def parseVal : Nat → List Char → Option (Json × List Char)
  | 0, _ => none
  | Nat.succ fuel, l =>
    match l.dropWhile isJsonWs with
    | [] => none
    | c :: r =>
      if c = '"' then (parseStringBody r).map fun p => (Json.str p.1, p.2)
      else if c = lbrace then parseMembers fuel [] true r
      else if c = '[' then parseElems fuel [] true r
      else match c :: r with
        | 'n' :: 'u' :: 'l' :: 'l' :: rest => some (Json.null, rest)
        | 't' :: 'r' :: 'u' :: 'e' :: rest => some (Json.bool true, rest)
        | 'f' :: 'a' :: 'l' :: 's' :: 'e' :: rest => some (Json.bool false, rest)
        | l2 => parseNumber l2

/-- Members of a JSON object, after the opening brace or a comma.
`allowClose` is false right after a comma (no trailing commas). -/
def parseMembers : Nat → List (List Char × Json) → Bool → List Char →
    Option (Json × List Char)
  | 0, _, _, _ => none
  | Nat.succ fuel, acc, allowClose, l =>
    match l.dropWhile isJsonWs with
    | [] => none
    | c :: r =>
      if c = rbrace then
        if allowClose then some (Json.obj acc, r) else none
      else if c = '"' then
        match parseStringBody r with
        | none => none
        | some (key, r2) =>
          match r2.dropWhile isJsonWs with
          | ':' :: r3 =>
            match parseVal fuel r3 with
            | none => none
            | some (v, r4) =>
              let acc2 := insertMember acc key v
              match r4.dropWhile isJsonWs with
              | ',' :: r5 => parseMembers fuel acc2 false r5
              | c2 :: r5 => if c2 = rbrace then some (Json.obj acc2, r5) else none
              | [] => none
          | _ => none
      else none

/-- Elements of a JSON array, after the opening bracket or a comma. -/
def parseElems : Nat → List Json → Bool → List Char → Option (Json × List Char)
  | 0, _, _, _ => none
  | Nat.succ fuel, acc, allowClose, l =>
    match l.dropWhile isJsonWs with
    | [] => none
    | c :: r =>
      if c = ']' ∧ allowClose then some (Json.arr acc.reverse, r)
      else match parseVal fuel (c :: r) with
        | none => none
        | some (v, r2) =>
          match r2.dropWhile isJsonWs with
          | ',' :: r3 => parseElems fuel (v :: acc) false r3
          | c2 :: r3 => if c2 = ']' then some (Json.arr (v :: acc).reverse, r3) else none
          | [] => none

end

/-- Model of Python `json.loads`: decode one value and require that only
whitespace remains; `none` models a raised `JSONDecodeError`. -/
def jsonLoads (l : List Char) : Option Json :=
  match parseVal (l.length + 2) l with
  | some (v, rest) => if (rest.dropWhile isJsonWs).isEmpty then some v else none
  | none => none

/-! ### The assessment parser (`ConversationManager.get_response`, final turn,
`src/main.py` lines 242-284) -/

/-- The pattern removed by the first `replace` on line 246. -/
def patJsonTag : List Char := [btick, btick, btick, 'j', 's', 'o', 'n']

/-- The pattern removed by the second `replace` on line 246. -/
def patTicks : List Char := [btick, btick, btick]

/-- Lines 244 and 246: strip, remove code-fence markers, strip again. -/
def cleanedText (raw : List Char) : List Char :=
  pyStrip (replaceAll patTicks (replaceAll patJsonTag (pyStrip raw)))

/-- `assessment_text.index(lbrace)` (line 249). -/
def firstLbrace (t : List Char) : Nat := t.findIdx fun c => c = lbrace

/-- `assessment_text.rindex(rbrace)` (line 250); meaningful when a closing
brace is present, as guaranteed by the guard on line 248. -/
def lastRbrace (t : List Char) : Nat := t.length - 1 - t.reverse.findIdx fun c => c = rbrace

/-- The slice `assessment_text[json_start:json_end]` (line 251). -/
def jsonCandidate (t : List Char) : List Char :=
  (t.drop (firstLbrace t)).take (lastRbrace t + 1 - firstLbrace t)

/-- `required_fields` (line 254). -/
def requiredFields : List (List Char) :=
  ["score".data, "stars".data, "message".data, "what_you_did_well".data,
    "improvement_tip".data]

/-- Python `field in assessment` for a decoded JSON value: key membership for
dicts, element equality for lists, substring test for strings, and a raised
`TypeError` (`none`) for the remaining types. -/
def keyMem (a : Json) (k : List Char) : Option Bool :=
  match a with
  | Json.obj ms => some (ms.any fun m => m.1 == k)
  | Json.arr es => some (es.any fun e => match e with | Json.str s => s == k | _ => false)
  | Json.str s => some (isSubstr k s)
  | _ => none

/-- `all(field in assessment for field in required_fields)` (line 255), with
Python's short-circuiting and exception behaviour (`none` = raised). -/
def checkFields (a : Json) : Option Bool :=
  requiredFields.foldl
    (fun st k => match st with
      | some true => keyMem a k
      | other => other)
    (some true)

/-- The fallback assessment built when decoding succeeds but a required field
is missing, or no brace pair is found (lines 258-268). -/
def default85 : Json :=
  Json.obj
    [("score".data, Json.num 85),
     ("stars".data, Json.num 4),
     ("message".data, Json.str "Great job! You completed the practice session.".data),
     ("what_you_did_well".data,
       Json.str "You engaged well in the conversation and showed good understanding of the topic.".data),
     ("improvement_tip".data, Json.obj
       [("what_they_said".data, Json.str "Your responses".data),
        ("better_way".data, Json.str "More natural phrasing with complete sentences".data),
        ("explanation".data,
          Json.str "Practice using full, polite sentences in conversation".data)])]

/-- The fallback assessment built in the `except` handler when any step of
the assessment generation raised (lines 271-284). -/
def default80 : Json :=
  Json.obj
    [("score".data, Json.num 80),
     ("stars".data, Json.num 4),
     ("message".data, Json.str "Well done! You completed the practice session.".data),
     ("what_you_did_well".data,
       Json.str "You participated actively and showed effort in practicing.".data),
     ("improvement_tip".data, Json.obj
       [("what_they_said".data, Json.str "Your conversation".data),
        ("better_way".data, Json.str "More detailed responses".data),
        ("explanation".data, Json.str "Try to elaborate more on your answers".data)])]

/-- The assessment-parsing pipeline applied to the raw text of the second LLM
call (lines 244-268 inside the `try`, with the `except` handler of lines
271-284 catching the `json.loads` failure): strip and de-fence the text, cut
from the first opening brace to the last closing brace, decode, and check the
required fields. -/
def parse_assessment (raw : List Char) : Json :=
  let t := cleanedText raw
  if (t.any fun c => c = lbrace) && (t.any fun c => c = rbrace) then
    match jsonLoads (jsonCandidate t) with
    | some a =>
      match checkFields a with
      | some true => a
      | some false => default85
      | none => default80
    | none => default80
  else default85

/-- Field access on a decoded JSON object. -/
def getMember (a : Json) (k : List Char) : Option Json :=
  match a with
  | Json.obj ms => (ms.find? fun m => m.1 == k).map (·.2)
  | _ => none

/-- The `score` field of an assessment, when it is a number. -/
def scoreOf (a : Json) : Option Int :=
  match getMember a "score".data with
  | some (Json.num n) => some n
  | _ => none

/-- The `stars` field of an assessment, when it is a number. -/
def starsOf (a : Json) : Option Int :=
  match getMember a "stars".data with
  | some (Json.num n) => some n
  | _ => none

/-- Is field `k` of `a` present with a string value? -/
def isStrField (a : Json) (k : List Char) : Bool :=
  match getMember a k with
  | some (Json.str _) => true
  | _ => false

/-- Structural validity of an assessment in the sense of the spec:
`score ∈ [0,100]`, `stars ∈ [1,5]`, and the `message`, `what_you_did_well`
and `improvement_tip` sub-fields present as strings. -/
def structValidB (a : Json) : Bool :=
  (match scoreOf a with | some n => decide (0 ≤ n ∧ n ≤ 100) | none => false) &&
  (match starsOf a with | some n => decide (1 ≤ n ∧ n ≤ 5) | none => false) &&
  isStrField a "message".data &&
  isStrField a "what_you_did_well".data &&
  (match getMember a "improvement_tip".data with
   | some tip => isStrField tip "what_they_said".data && isStrField tip "better_way".data &&
       isStrField tip "explanation".data
   | none => false)

/-! ### Language profile table (`get_system_prompt`, lines 123-161) -/

/-- One entry of `language_configs`. -/
structure LangConfig where
  name : String
  instruction : String
  aspects : String
deriving DecidableEq

/-- The `english` entry of `language_configs`. -/
def englishConfig : LangConfig :=
  { name := "English"
    instruction := "Respond in English"
    aspects := "pronunciation, grammar, and vocabulary" }

/-- The `hindi` entry of `language_configs`. -/
def hindiConfig : LangConfig :=
  { name := "Hindi (हिंदी)"
    instruction := "Respond in Hindi (Devanagari script). Use simple, conversational Hindi that a learner would understand."
    aspects := "pronunciation (उच्चारण), grammar (व्याकरण), and vocabulary (शब्दावली)" }

/-- The `kannada` entry of `language_configs`. -/
def kannadaConfig : LangConfig :=
  { name := "Kannada (ಕನ್ನಡ)"
    instruction := "Respond in Kannada (Kannada script). Use simple, conversational Kannada that a learner would understand."
    aspects := "pronunciation (ಉಚ್ಚಾರಣೆ), grammar (ವ್ಯಾಕರಣ), and vocabulary (ಶಬ್ದಕೋಶ)" }

/-- The `tamil` entry of `language_configs`. -/
def tamilConfig : LangConfig :=
  { name := "Tamil (தமிழ்)"
    instruction := "Respond in Tamil (Tamil script). Use simple, conversational Tamil that a learner would understand."
    aspects := "pronunciation (உச்சரிப்பு), grammar (இலக்கணம்), and vocabulary (சொல்வளம்)" }

/-- The `telugu` entry of `language_configs`. -/
def teluguConfig : LangConfig :=
  { name := "Telugu (తెలుగు)"
    instruction := "Respond in Telugu (Telugu script). Use simple, conversational Telugu that a learner would understand."
    aspects := "pronunciation (ఉచ్చారణ), grammar (వ్యాకరణం), and vocabulary (పదకోశం)" }

/-- The `malayalam` entry of `language_configs`. -/
def malayalamConfig : LangConfig :=
  { name := "Malayalam (മലയാളം)"
    instruction := "Respond in Malayalam (Malayalam script). Use simple, conversational Malayalam that a learner would understand."
    aspects := "pronunciation (ഉച്ചാരണം), grammar (വ്യാകരണം), and vocabulary (പദസമ്പത്ത്)" }

/-- The `bengali` entry of `language_configs`. -/
def bengaliConfig : LangConfig :=
  { name := "Bengali (বাংলা)"
    instruction := "Respond in Bengali (Bengali script). Use simple, conversational Bengali that a learner would understand."
    aspects := "pronunciation (উচ্চারণ), grammar (ব্যাকরণ), and vocabulary (শব্দভাণ্ডার)" }

/-- `language_configs.get(lang, language_configs['english'])` (line 161):
the seven-entry table with the English default for any other key. -/
def language_configs (lang : String) : LangConfig :=
  if lang = "english" then englishConfig
  else if lang = "hindi" then hindiConfig
  else if lang = "kannada" then kannadaConfig
  else if lang = "tamil" then tamilConfig
  else if lang = "telugu" then teluguConfig
  else if lang = "malayalam" then malayalamConfig
  else if lang = "bengali" then bengaliConfig
  else englishConfig

/-- The supported language identifiers (the keys of `language_configs`). -/
def supported_languages : List String :=
  ["english", "hindi", "kannada", "tamil", "telugu", "malayalam", "bengali"]

/-- Language profile lookup as experienced by a caller: `__init__` stores
`language.lower()` (line 117) and `get_system_prompt` reads the table with
the English default (line 161), so the composite lookup is case-insensitive
and total. -/
def lookupProfile (identifier : String) : LangConfig :=
  language_configs (pyLower identifier)

/-! ### Session state (`ConversationManager`, lines 113-120) -/

/-- One history entry `{"role": ..., "content": ...}`. -/
structure Turn where
  role : String
  content : String
deriving DecidableEq

/-- The per-session state of `ConversationManager`. -/
structure ConversationManager where
  topic : String
  lesson_content : String
  language : String
  history : List Turn
  turn_count : Nat
  max_turns : Nat
deriving DecidableEq

/-- `ConversationManager.__init__` (lines 114-120). -/
def ConversationManager.init (topic lesson_content language : String) : ConversationManager :=
  { topic := topic
    lesson_content := lesson_content
    language := pyLower language
    history := []
    turn_count := 0
    max_turns := 10 }

/-- `ConversationManager.add_message` (lines 204-207): append a turn and
count it when its role is `user`. -/
def add_message (s : ConversationManager) (role content : String) : ConversationManager :=
  { s with
    history := s.history ++ [{ role := role, content := content }]
    turn_count := if role = "user" then s.turn_count + 1 else s.turn_count }

/-! ### Prompt construction (`get_system_prompt` lines 122-202 and the
assessment prompt lines 224-240) -/

/-- `get_system_prompt` (lines 163-202): the system instruction text. -/
def get_system_prompt (s : ConversationManager) : String :=
  let config := language_configs s.language
  "You are a " ++ config.name ++
  " language learning companion helping a student practice what they\x27ve learned.\n\nTopic: " ++
  s.topic ++ "\nLesson Content: " ++ s.lesson_content ++ "\nLanguage: " ++ config.name ++
  "\n\nIMPORTANT: " ++ config.instruction ++
  "\n\nYour role:\n1. Have a natural conversation with the student about the topic IN " ++
  pyUpper config.name ++
  "\n2. Ask questions to assess their understanding\n3. Correct mistakes gently and provide better alternatives\n4. Track " ++
  config.aspects ++ " usage\n5. After " ++ toString s.max_turns ++
  " exchanges, provide a final score and detailed feedback\n\nConversation guidelines:\n- Keep responses conversational and encouraging\n- Ask follow-up questions to assess understanding\n- Note any grammatical errors or pronunciation issues\n- Be supportive and constructive\n- Use simple, clear language appropriate for a learner\n\nCurrent turn: " ++
  toString s.turn_count ++ "/" ++ toString s.max_turns ++
  "\n\nIf this is the final turn, provide a JSON response with:\n\x7b\n    \"final_assessment\": true,\n    \"score\": <number out of 100>,\n    \"stars\": <number 1-5>,\n    \"message\": \"<encouraging message IN " ++
  pyUpper config.name ++ ">\",\n    \"what_you_did_well\": \"<specific praise IN " ++
  pyUpper config.name ++
  ">\",\n    \"improvement_tip\": \x7b\n        \"what_they_said\": \"<exact problematic phrase>\",\n        \"better_way\": \"<corrected phrase IN " ++
  pyUpper config.name ++ ">\",\n        \"explanation\": \"<why this is better IN " ++
  pyUpper config.name ++
  ">\"\n    \x7d,\n    \"detailed_feedback\": \"<comprehensive feedback IN " ++
  pyUpper config.name ++
  ">\"\n\x7d\n\nOtherwise, respond naturally IN " ++ pyUpper config.name ++
  " to continue the conversation."

/-- Hexadecimal digit (lowercase), for `json.dumps` escapes. -/
def hexDigitChar (n : Nat) : Char :=
  if n < 10 then Char.ofNat ('0'.toNat + n) else Char.ofNat ('a'.toNat + n - 10)

/-- Four lowercase hexadecimal digits. -/
def hex4Str (n : Nat) : String :=
  String.mk [hexDigitChar (n / 4096 % 16), hexDigitChar (n / 256 % 16),
    hexDigitChar (n / 16 % 16), hexDigitChar (n % 16)]

/-- `json.dumps` escaping of one character (default `ensure_ascii=True`). -/
def jsonEscChar (c : Char) : String :=
  if c = '"' then "\\\""
  else if c = '\\' then "\\\\"
  else if c = '\n' then "\\n"
  else if c = '\t' then "\\t"
  else if c = '\r' then "\\r"
  else if c.toNat = 8 then "\\b"
  else if c.toNat = 12 then "\\f"
  else if c.toNat < 32 then "\\u" ++ hex4Str c.toNat
  else if c.toNat < 127 then String.singleton c
  else if c.toNat ≤ 65535 then "\\u" ++ hex4Str c.toNat
  else
    "\\u" ++ hex4Str (55296 + (c.toNat - 65536) / 1024) ++
    "\\u" ++ hex4Str (56320 + (c.toNat - 65536) % 1024)

/-- A `json.dumps` string literal. -/
def jsonEscString (s : String) : String :=
  "\"" ++ s.data.foldl (fun acc c => acc ++ jsonEscChar c) "" ++ "\""

/-- One history entry as printed by `json.dumps(..., indent=2)`. -/
def dumpTurn (t : Turn) : String :=
  "  \x7b\n    \"role\": " ++ jsonEscString t.role ++
  ",\n    \"content\": " ++ jsonEscString t.content ++ "\n  \x7d"

/-- `json.dumps(history, indent=2)` for a list of history entries. -/
def dumpsHistory (h : List Turn) : String :=
  match h with
  | [] => "[]"
  | _ => "[\n" ++ String.intercalate ",\n" (h.map dumpTurn) ++ "\n]"

/-- The assessment prompt (lines 224-240), over `history[-20:]`. -/
def assessment_prompt (s : ConversationManager) : String :=
  "Based on this conversation, provide a final assessment as ONLY valid JSON (no markdown, no backticks, no preamble):\n\nConversation:\n" ++
  dumpsHistory (s.history.drop (s.history.length - 20)) ++
  "\n\nReturn ONLY this JSON structure, nothing else:\n\x7b\n    \"score\": 85,\n    \"stars\": 4,\n    \"message\": \"Great job!\",\n    \"what_you_did_well\": \"Your pronunciation was clear and you used polite language.\",\n    \"improvement_tip\": \x7b\n        \"what_they_said\": \"I want hot\",\n        \"better_way\": \"I would like it hot, please\",\n        \"explanation\": \"Adding \x27I would like\x27 and \x27please\x27 sounds more polite and natural\"\n    \x7d\n\x7d"

/-- The running context sent to the LLM (lines 212-214): system prompt plus
the serialized history. -/
def get_context (s : ConversationManager) : String :=
  get_system_prompt s ++ "\n\nConversation history:\n" ++
  s.history.foldl (fun acc m => acc ++ m.role ++ ": " ++ m.content ++ "\n") ""

/-! ### `get_response` (lines 209-286) -/

/-- The value returned by `get_response`: an ordinary reply
(`{"is_final": False, "message": ...}`) or a final assessment
(`{"is_final": True, "assessment": ...}`). -/
inductive TurnResult where
  | message (text : String) : TurnResult
  | assessment (a : Json) : TurnResult

/-- `ConversationManager.get_response` (lines 209-286).  The LLM collaborator
is the oracle `llm`; `llm p = none` models `model.generate_content` raising.
The returned state is the session after the call; the `Option TurnResult` is
`none` when the first, uncaught LLM call raised (the user turn is appended
and counted before that call is dispatched, and is not rolled back). -/
def get_response (llm : String → Option String) (s : ConversationManager)
    (user_message : String) : ConversationManager × Option TurnResult :=
  let s1 := add_message s "user" user_message
  match llm (get_context s1) with
  | none => (s1, none)
  | some rawReply =>
    let assistant_message := pyStripS rawReply
    let s2 := add_message s1 "assistant" assistant_message
    if s2.max_turns ≤ s2.turn_count then
      match llm (assessment_prompt s2) with
      | none => (s2, some (TurnResult.assessment default80))
      | some rawA => (s2, some (TurnResult.assessment (parse_assessment rawA.data)))
    else
      (s2, some (TurnResult.message assistant_message))

/-- Is a `get_response` outcome a final assessment? -/
def isFinalResult : Option TurnResult → Bool
  | some (TurnResult.assessment _) => true
  | _ => false

/-! ### Session registry (the module-level `conversations` dict, line 111,
and the `start_session` / `end_session` handlers, lines 289-310 and 404-413) -/

/-- The registry, as a finite-map-like function. -/
abbrev Registry : Type := String → Option ConversationManager

/-- `conversations[session_id] = ConversationManager(...)` (line 299): the
registration step of `start_session`, which silently overwrites any entry
already stored under `session_id`. -/
def registry_create (reg : Registry) (session_id topic lesson_content language : String) :
    Registry :=
  fun k => if k = session_id then some (ConversationManager.init topic lesson_content language)
    else reg k

/-- `end_session` (lines 404-413): delete the entry when present, and answer
`{"status": "success"}` unconditionally. -/
def end_session (reg : Registry) (session_id : String) : Registry × String :=
  (fun k => if k = session_id then none else reg k, "success")

/-! ### Operation sequences over one session -/

/-- The operations the source performs on a session object: a direct
`add_message`, or a full `get_response` call with some LLM oracle. -/
inductive SessionOp where
  | message (role content : String) : SessionOp
  | respond (llm : String → Option String) (msg : String) : SessionOp

/-- Apply one operation to a session. -/
def applyOp (s : ConversationManager) : SessionOp → ConversationManager
  | SessionOp.message role content => add_message s role content
  | SessionOp.respond llm msg => (get_response llm s msg).1

/-- Apply a sequence of operations. -/
def runOps (s : ConversationManager) (ops : List SessionOp) : ConversationManager :=
  ops.foldl applyOp s

/-- The number of user turns in a history. -/
def userCount (h : List Turn) : Nat :=
  (h.filter fun t => t.role = "user").length

/-! ### Basic lemmas about `add_message` and `get_response` -/

theorem add_message_history (s : ConversationManager) (role content : String) :
    (add_message s role content).history = s.history ++ [{ role := role, content := content }] := rfl

theorem add_message_user_count (s : ConversationManager) (content : String) :
    (add_message s "user" content).turn_count = s.turn_count + 1 := by
  simp [add_message]

theorem add_message_assistant_count (s : ConversationManager) (content : String) :
    (add_message s "assistant" content).turn_count = s.turn_count := by
  simp [add_message]

theorem add_message_max_turns (s : ConversationManager) (role content : String) :
    (add_message s role content).max_turns = s.max_turns := rfl

/-- The state coming out of `get_response` is the input state with the user
turn appended, and, when the first LLM call answered, the assistant turn
appended after it. -/
theorem get_response_fst (llm : String → Option String) (s : ConversationManager)
    (msg : String) :
    (get_response llm s msg).1 = add_message s "user" msg
    ∨ ∃ t, (get_response llm s msg).1
        = add_message (add_message s "user" msg) "assistant" (pyStripS t) := by
  cases h : llm (get_context (add_message s "user" msg)) with
  | none => exact Or.inl (by simp [get_response, h])
  | some t =>
    refine Or.inr ⟨t, ?_⟩
    simp only [get_response, h]
    split
    · cases llm (assessment_prompt (add_message (add_message s "user" msg) "assistant" (pyStripS t))) <;> rfl
    · rfl

/-! ### Claim C2 -/

/-- C2: every `get_response` call increments `turn_count` by exactly one —
the appended user turn counts and the appended assistant turn does not — and
no session operation ever decreases `turn_count`. -/
theorem submit_increments_turn_count :
    (∀ llm s msg, ((get_response llm s msg).1).turn_count = s.turn_count + 1)
    ∧ (∀ s content, (add_message s "user" content).turn_count = s.turn_count + 1)
    ∧ (∀ s content, (add_message s "assistant" content).turn_count = s.turn_count)
    ∧ (∀ s role content, s.turn_count ≤ (add_message s role content).turn_count) := by
  refine ⟨fun llm s msg => ?_, add_message_user_count, add_message_assistant_count,
    fun s role content => ?_⟩
  · rcases get_response_fst llm s msg with h | ⟨t, h⟩
    · rw [h, add_message_user_count]
    · rw [h, add_message_assistant_count, add_message_user_count]
  · simp only [add_message]
    split <;> omega

/-! ### Claim C7 -/

/-- C7: when the first LLM call raises, the session keeps the already
appended user turn and the incremented turn count, no assistant turn is
added, and nothing is returned — the mutation is not rolled back. -/
theorem llm_failure_leaves_orphan_turn (llm : String → Option String)
    (s : ConversationManager) (msg : String)
    (h : llm (get_context (add_message s "user" msg)) = none) :
    (get_response llm s msg).1.history = s.history ++ [{ role := "user", content := msg }]
    ∧ (get_response llm s msg).1.turn_count = s.turn_count + 1
    ∧ (get_response llm s msg).2 = none := by
  have hfst : get_response llm s msg = (add_message s "user" msg, none) := by
    simp [get_response, h]
  rw [hfst]
  exact ⟨rfl, add_message_user_count s msg, rfl⟩

/-- Witness: a concrete session submitted to an oracle that always raises. -/
theorem llm_failure_leaves_orphan_turn_witness :
    (get_response (fun _ => none) (ConversationManager.init "Topic" "Lesson" "english") "Hi").1.history
        = (ConversationManager.init "Topic" "Lesson" "english").history
            ++ [{ role := "user", content := "Hi" }]
    ∧ (get_response (fun _ => none) (ConversationManager.init "Topic" "Lesson" "english") "Hi").1.turn_count
        = (ConversationManager.init "Topic" "Lesson" "english").turn_count + 1
    ∧ (get_response (fun _ => none) (ConversationManager.init "Topic" "Lesson" "english") "Hi").2 = none :=
  llm_failure_leaves_orphan_turn (fun _ => none) (ConversationManager.init "Topic" "Lesson" "english") "Hi" rfl

/-! ### Claim C8 -/

/-- C8: `end_session` removes the entry (a subsequent lookup yields `none`),
is idempotent on the registry, and answers success whether or not the
session existed. -/
theorem end_session_spec :
    ∀ (reg : Registry) (sid : String),
      (end_session reg sid).1 sid = none
      ∧ (end_session reg sid).2 = "success"
      ∧ (end_session (end_session reg sid).1 sid).2 = "success"
      ∧ ∀ k, (end_session (end_session reg sid).1 sid).1 k = (end_session reg sid).1 k := by
  intro reg sid
  refine ⟨by simp [end_session], rfl, rfl, fun k => ?_⟩
  by_cases h : k = sid <;> simp [end_session, h]

/-! ### Claim C6 -/

/-- C6 (amended): the registration step of `start_session` is total and
silently overwrites — afterwards the registry maps `session_id` to a fresh
Active session with `turn_count = 0` and empty history, discarding any prior
entry, while other keys are untouched.  No duplicate error exists. -/
theorem registry_create_spec (reg : Registry)
    (session_id topic lesson_content language k : String) (hk : k ≠ session_id) :
    registry_create reg session_id topic lesson_content language session_id
        = some (ConversationManager.init topic lesson_content language)
    ∧ (ConversationManager.init topic lesson_content language).turn_count = 0
    ∧ (ConversationManager.init topic lesson_content language).history = []
    ∧ registry_create reg session_id topic lesson_content language k = reg k := by
  exact ⟨by simp [registry_create], rfl, rfl, by simp [registry_create, hk]⟩

/-- Witness for the create specification at a concrete registry and keys. -/
theorem registry_create_spec_witness :
    registry_create (fun _ => none) "s1" "T" "L" "english" "s1"
        = some (ConversationManager.init "T" "L" "english")
    ∧ (ConversationManager.init "T" "L" "english").turn_count = 0
    ∧ (ConversationManager.init "T" "L" "english").history = []
    ∧ registry_create (fun _ => none) "s1" "T" "L" "english" "s2" = (fun _ => none) "s2" :=
  registry_create_spec (fun _ => none) "s1" "T" "L" "english" "s2" (by decide)

/-- A registry that already holds a session `s1` in which five turns have
been taken. -/
def dupRegistry : Registry :=
  fun k =>
    if k = "s1"
    then some { ConversationManager.init "Topic A" "Lesson A" "english" with turn_count := 5 }
    else none

/-- C6 counterexample: creating `s1` again raises no duplicate error and does
not leave the existing session unchanged — the stored session had
`turn_count = 5` and afterwards the registry holds a fresh session with
`turn_count = 0`. -/
theorem create_duplicate_overwrites_counterexample :
    (dupRegistry "s1").map ConversationManager.turn_count = some 5
    ∧ ((registry_create dupRegistry "s1" "Topic B" "Lesson B" "hindi") "s1").map
        ConversationManager.turn_count = some 0
    ∧ (registry_create dupRegistry "s1" "Topic B" "Lesson B" "hindi") "s1"
        = some (ConversationManager.init "Topic B" "Lesson B" "hindi") :=
  ⟨rfl, rfl, rfl⟩

/-! ### Claim C9 -/

/-- C9: profile lookup is total and case-insensitive, every identifier whose
lowering is outside the supported set yields the English profile, and the
seven supported identifiers give pairwise distinct profiles with non-empty
instructions. -/
theorem lookup_profile_spec :
    (∀ idf, pyLower idf ∉ supported_languages → lookupProfile idf = englishConfig)
    ∧ (∀ idf idg, pyLower idf = pyLower idg → lookupProfile idf = lookupProfile idg)
    ∧ List.Nodup (supported_languages.map lookupProfile)
    ∧ ∀ l ∈ supported_languages, (lookupProfile l).instruction ≠ "" := by
  refine ⟨fun idf h => ?_, fun idf idg h => ?_, by decide, by decide⟩
  · simp only [supported_languages, List.mem_cons, List.not_mem_nil, or_false, not_or] at h
    obtain ⟨h1, h2, h3, h4, h5, h6, h7⟩ := h
    simp only [lookupProfile, language_configs, if_neg h1, if_neg h2, if_neg h3, if_neg h4,
      if_neg h5, if_neg h6, if_neg h7]
  · simp only [lookupProfile, h]

/-- Witness: an unknown identifier falls back to English, lookup ignores
case, and a supported identifier has a non-empty instruction. -/
theorem lookup_profile_spec_witness :
    lookupProfile "KLINGON" = englishConfig
    ∧ lookupProfile "ENGLISH" = lookupProfile "English"
    ∧ (lookupProfile "hindi").instruction ≠ "" :=
  ⟨lookup_profile_spec.1 "KLINGON" (by decide),
   lookup_profile_spec.2.1 "ENGLISH" "English" (by decide),
   lookup_profile_spec.2.2.2 "hindi" (by decide)⟩

/-! ### Claim C10 -/

theorem userCount_append (h : List Turn) (t : Turn) :
    userCount (h ++ [t]) = userCount h + (if t.role = "user" then 1 else 0) := by
  by_cases ht : t.role = "user" <;>
    simp [userCount, List.filter_append, ht]

theorem applyOp_count (s : ConversationManager) (op : SessionOp)
    (hs : s.turn_count = userCount s.history) :
    (applyOp s op).turn_count = userCount (applyOp s op).history := by
  cases op with
  | message role content =>
    show (add_message s role content).turn_count = userCount (add_message s role content).history
    rw [add_message_history, userCount_append]
    by_cases h : role = "user" <;> simp [add_message, h, hs]
  | respond llm msg =>
    show ((get_response llm s msg).1).turn_count = userCount ((get_response llm s msg).1).history
    rcases get_response_fst llm s msg with h | ⟨t, h⟩
    · rw [h, add_message_user_count, add_message_history, userCount_append]
      simp [hs]
    · rw [h, add_message_assistant_count, add_message_user_count, add_message_history,
        add_message_history, userCount_append, userCount_append]
      simp [hs]

/-- C10: for every sequence of session operations starting from a fresh
session, `turn_count` equals the number of user turns in the history, and
every single operation only appends to the history. -/
theorem history_append_only_invariant :
    (∀ topic lesson_content language ops,
      (runOps (ConversationManager.init topic lesson_content language) ops).turn_count
        = userCount (runOps (ConversationManager.init topic lesson_content language) ops).history)
    ∧ ∀ s op, ∃ tail, (applyOp s op).history = s.history ++ tail := by
  constructor
  · have main : ∀ ops (s : ConversationManager), s.turn_count = userCount s.history →
        (runOps s ops).turn_count = userCount (runOps s ops).history := by
      intro ops
      induction ops with
      | nil => exact fun s hs => hs
      | cons op rest ih => exact fun s hs => ih (applyOp s op) (applyOp_count s op hs)
    exact fun topic lesson_content language ops => main ops _ rfl
  · intro s op
    cases op with
    | message role content => exact ⟨_, rfl⟩
    | respond llm msg =>
      rcases get_response_fst llm s msg with h | ⟨t, h⟩
      · exact ⟨[{ role := "user", content := msg }], by
          show ((get_response llm s msg).1).history = _
          rw [h, add_message_history]⟩
      · exact ⟨[{ role := "user", content := msg }, { role := "assistant", content := pyStripS t }], by
          show ((get_response llm s msg).1).history = _
          rw [h, add_message_history, add_message_history, List.append_assoc]
          rfl⟩

/-! ### Claim C1 -/

/-- C1 (amended): provided the first LLM call answers, `get_response`
returns an ordinary message exactly when the resulting `turn_count` is still
below `max_turns`, and a final assessment exactly when the resulting
`turn_count` has reached `max_turns` or beyond; the session object has no
terminal state, so the finality condition is monotone in `turn_count` but an
assessment is produced on every qualifying call, not once. -/
theorem final_exactly_at_max_turns (llm : String → Option String)
    (s : ConversationManager) (msg t : String)
    (h : llm (get_context (add_message s "user" msg)) = some t) :
    (get_response llm s msg).1.turn_count = s.turn_count + 1
    ∧ (isFinalResult (get_response llm s msg).2 = true ↔ s.max_turns ≤ s.turn_count + 1)
    ∧ ((get_response llm s msg).2 = some (TurnResult.message (pyStripS t))
        ↔ s.turn_count + 1 < s.max_turns) := by
  simp only [get_response, h, add_message_max_turns, add_message_assistant_count,
    add_message_user_count]
  by_cases hf : s.max_turns ≤ s.turn_count + 1
  · rw [if_pos hf]
    cases llm (assessment_prompt (add_message (add_message s "user" msg) "assistant" (pyStripS t))) with
    | none =>
      refine ⟨by rw [add_message_assistant_count, add_message_user_count],
        by simp [isFinalResult, hf], ?_⟩
      constructor
      · intro hc; simp at hc
      · intro hc; exact absurd hf (not_le.mpr hc)
    | some u =>
      refine ⟨by rw [add_message_assistant_count, add_message_user_count],
        by simp [isFinalResult, hf], ?_⟩
      constructor
      · intro hc; simp at hc
      · intro hc; exact absurd hf (not_le.mpr hc)
  · rw [if_neg hf]
    refine ⟨by rw [add_message_assistant_count, add_message_user_count], ?_, ?_⟩
    · simp only [isFinalResult]
      exact iff_of_false (by simp) hf
    · exact iff_of_true rfl (by omega)

/-- Witness for the final-turn characterisation at a fresh session and a
constant oracle. -/
theorem final_exactly_at_max_turns_witness :
    (get_response (fun _ => some "ok") (ConversationManager.init "T" "L" "english") "hi").1.turn_count
        = (ConversationManager.init "T" "L" "english").turn_count + 1
    ∧ (isFinalResult (get_response (fun _ => some "ok") (ConversationManager.init "T" "L" "english") "hi").2 = true
        ↔ (ConversationManager.init "T" "L" "english").max_turns
            ≤ (ConversationManager.init "T" "L" "english").turn_count + 1)
    ∧ ((get_response (fun _ => some "ok") (ConversationManager.init "T" "L" "english") "hi").2
          = some (TurnResult.message (pyStripS "ok"))
        ↔ (ConversationManager.init "T" "L" "english").turn_count + 1
            < (ConversationManager.init "T" "L" "english").max_turns) :=
  final_exactly_at_max_turns (fun _ => some "ok")
    (ConversationManager.init "T" "L" "english") "hi" "ok" rfl

/-- The constant LLM oracle used by the C1 counterexample. -/
def constLLM : String → Option String := fun _ => some "Reply"

/-- The session after `n` `get_response` calls on a fresh English session,
all served by `constLLM`. -/
def cSession : Nat → ConversationManager
  | 0 => ConversationManager.init "Topic" "Lesson" "english"
  | Nat.succ n => (get_response constLLM (cSession n) "hi").1

/-- The result of call number `n + 1` in that run. -/
def cResult (n : Nat) : Option TurnResult :=
  (get_response constLLM (cSession n) "hi").2

/-- C1 counterexample: the tenth call produces the assessment, but the
session is not terminal — the eleventh call is accepted, increments the turn
count past `max_turns`, and produces an assessment a second time. -/
theorem final_not_terminal_counterexample :
    isFinalResult (cResult 8) = false
    ∧ isFinalResult (cResult 9) = true
    ∧ isFinalResult (cResult 10) = true
    ∧ (cSession 10).turn_count = 10
    ∧ (cSession 11).turn_count = 11 := by
  exact ⟨by decide, by decide, by decide, by decide, by decide⟩

/-! ### Claim C3 -/

/-- C3 (amended): the assessment parser is total — every input yields either
the decoded candidate object or one of exactly two fixed fallback
assessments — and the fallback condition mapping is: a missing brace pair or
a decoded object lacking a required field yields the score-85 default, while
an exception (a decode failure of the brace-to-brace candidate, or a raised
membership check) yields the score-80 default; both defaults carry four
stars. -/
theorem assessment_parser_total_fallbacks :
    (∀ raw, parse_assessment raw = default85 ∨ parse_assessment raw = default80
      ∨ ∃ a, jsonLoads (jsonCandidate (cleanedText raw)) = some a
          ∧ checkFields a = some true ∧ parse_assessment raw = a)
    ∧ (∀ raw, ((((cleanedText raw).any fun c => c = lbrace)
          && ((cleanedText raw).any fun c => c = rbrace)) = false
        ∨ ∃ a, jsonLoads (jsonCandidate (cleanedText raw)) = some a
            ∧ checkFields a = some false) →
        parse_assessment raw = default85)
    ∧ (∀ raw, (((cleanedText raw).any fun c => c = lbrace)
          && ((cleanedText raw).any fun c => c = rbrace)) = true →
        (jsonLoads (jsonCandidate (cleanedText raw)) = none
          ∨ ∃ a, jsonLoads (jsonCandidate (cleanedText raw)) = some a
              ∧ checkFields a = none) →
        parse_assessment raw = default80)
    ∧ scoreOf default85 = some 85 ∧ starsOf default85 = some 4
    ∧ scoreOf default80 = some 80 ∧ starsOf default80 = some 4 := by
  refine ⟨fun raw => ?_, fun raw h => ?_, fun raw hb h => ?_, rfl, rfl, rfl, rfl⟩
  · cases hb : ((cleanedText raw).any fun c => c = lbrace)
        && ((cleanedText raw).any fun c => c = rbrace) with
    | false => left; simp [parse_assessment, hb]
    | true =>
      cases hj : jsonLoads (jsonCandidate (cleanedText raw)) with
      | none => right; left; simp [parse_assessment, hb, hj]
      | some a =>
        cases hc : checkFields a with
        | none => right; left; simp [parse_assessment, hb, hj, hc]
        | some b =>
          cases b with
          | false => left; simp [parse_assessment, hb, hj, hc]
          | true => exact Or.inr (Or.inr ⟨a, rfl, hc, by simp [parse_assessment, hb, hj, hc]⟩)
  · rcases h with h | ⟨a, hj, hc⟩
    · simp [parse_assessment, h]
    · cases hb : ((cleanedText raw).any fun c => c = lbrace)
          && ((cleanedText raw).any fun c => c = rbrace) with
      | false => simp [parse_assessment, hb]
      | true => simp [parse_assessment, hb, hj, hc]
  · rcases h with h | ⟨a, hj, hc⟩
    · simp [parse_assessment, hb, h]
    · simp [parse_assessment, hb, hj, hc]

/-- Witness for the fallback condition mapping: a brace-free input and a
field-missing decodable input both yield the score-85 default, while a
brace-delimited candidate whose decoding raises yields the score-80
default. -/
theorem assessment_parser_total_fallbacks_witness :
    parse_assessment "no json here at all".data = default85
    ∧ parse_assessment "\x7b\"score\": 1\x7d".data = default85
    ∧ parse_assessment "\x7bnope\x7d".data = default80 :=
  ⟨assessment_parser_total_fallbacks.2.1 "no json here at all".data (Or.inl (by decide)),
   assessment_parser_total_fallbacks.2.1 "\x7b\"score\": 1\x7d".data
     (Or.inr ⟨Json.obj [("score".data, Json.num 1)], rfl, rfl⟩),
   assessment_parser_total_fallbacks.2.2.1 "\x7bnope\x7d".data (by decide) (Or.inl rfl)⟩

/-- C3 counterexample: on an input whose brace-to-brace candidate fails to
decode, the parser returns the score-80 exception fallback, not the score-85
default — the fallback is not one identical assessment. -/
theorem assessment_parser_two_defaults_counterexample :
    parse_assessment "\x7bbad\x7d".data = default80
    ∧ scoreOf (parse_assessment "\x7bbad\x7d".data) = some 80
    ∧ parse_assessment "\x7bbad\x7d".data ≠ default85 :=
  ⟨rfl, rfl, fun h => absurd (congrArg scoreOf h) (by decide)⟩

/-! ### Claim C4 -/

/-- C4 (amended): both fallback assessments are structurally valid, but when
decoding succeeds and all required fields are present the decoded object is
returned verbatim, with no range or type validation of its values. -/
theorem assessment_validity_and_passthrough (raw : List Char) (a : Json)
    (hb : (((cleanedText raw).any fun c => c = lbrace)
        && ((cleanedText raw).any fun c => c = rbrace)) = true)
    (hj : jsonLoads (jsonCandidate (cleanedText raw)) = some a)
    (hf : checkFields a = some true) :
    structValidB default85 = true
    ∧ structValidB default80 = true
    ∧ parse_assessment raw = a :=
  ⟨rfl, rfl, by simp [parse_assessment, hb, hj, hf]⟩

/-- Witness for the pass-through behaviour at a concrete decodable input. -/
theorem assessment_validity_and_passthrough_witness :
    structValidB default85 = true
    ∧ structValidB default80 = true
    ∧ parse_assessment "\x7b\"score\": 95, \"stars\": 5, \"message\": \"good\", \"what_you_did_well\": \"vocab\", \"improvement_tip\": \"keep going\"\x7d".data
        = Json.obj
            [("score".data, Json.num 95), ("stars".data, Json.num 5),
             ("message".data, Json.str "good".data),
             ("what_you_did_well".data, Json.str "vocab".data),
             ("improvement_tip".data, Json.str "keep going".data)] :=
  assessment_validity_and_passthrough _ _ (by decide) (by rfl) (by rfl)

/-- C4 counterexample: a decoded object with `score` 500, `stars` 7 and a
non-object `improvement_tip` passes the presence check and is returned
as-is, violating structural validity. -/
theorem assessment_invalid_output_counterexample :
    scoreOf (parse_assessment "\x7b\"score\": 500, \"stars\": 7, \"message\": \"m\", \"what_you_did_well\": \"w\", \"improvement_tip\": \"t\"\x7d".data)
        = some 500
    ∧ structValidB (parse_assessment "\x7b\"score\": 500, \"stars\": 7, \"message\": \"m\", \"what_you_did_well\": \"w\", \"improvement_tip\": \"t\"\x7d".data)
        = false :=
  ⟨by decide, by decide⟩

/-! ### Lemmas about `replaceAll`, towards the round-trip claim -/

theorem startsWith_append_self (p x : List Char) : startsWith p (p ++ x) = true := by
  induction p with
  | nil => rfl
  | cons c ps ih => simp [startsWith, ih]

theorem replaceAllGo_fuel (pat : List Char) :
    ∀ f1 f2 (l : List Char), l.length ≤ f1 → l.length ≤ f2 →
      replaceAllGo pat f1 l = replaceAllGo pat f2 l := by
  intro f1
  induction f1 with
  | zero =>
    intro f2 l h1 _
    have hl : l = [] := List.eq_nil_of_length_eq_zero (Nat.le_zero.mp h1)
    subst hl
    cases f2 <;> rfl
  | succ f1' ih =>
    intro f2 l h1 h2
    cases l with
    | nil => cases f2 <;> rfl
    | cons c rest =>
      cases f2 with
      | zero => simp at h2
      | succ f2' =>
        have hr1 : rest.length ≤ f1' := by simp at h1; omega
        have hr2 : rest.length ≤ f2' := by simp at h2; omega
        simp only [replaceAllGo]
        by_cases hc : (startsWith pat (c :: rest) && !pat.isEmpty) = true
        · rw [if_pos hc, if_pos hc]
          exact ih f2' _ (by rw [List.length_drop]; omega) (by rw [List.length_drop]; omega)
        · rw [if_neg hc, if_neg hc]
          exact congrArg (c :: ·) (ih f2' rest hr1 hr2)

theorem replaceAll_cons_no_match (pat : List Char) (c : Char) (rest : List Char)
    (h : startsWith pat (c :: rest) = false) :
    replaceAll pat (c :: rest) = c :: replaceAll pat rest := by
  show replaceAllGo pat (rest.length + 1) (c :: rest) = c :: replaceAllGo pat rest.length rest
  simp [replaceAllGo, h]

theorem replaceAll_clean_append (pt' a x : List Char) (ha : ∀ c ∈ a, c ≠ btick) :
    replaceAll (btick :: pt') (a ++ x) = a ++ replaceAll (btick :: pt') x := by
  induction a with
  | nil => rfl
  | cons c a' ih =>
    have hc : c ≠ btick := ha c (List.mem_cons_self ..)
    have hb : (btick == c) = false := beq_eq_false_iff_ne.mpr (Ne.symm hc)
    have hsw : startsWith (btick :: pt') (c :: (a' ++ x)) = false := by
      simp [startsWith, hb]
    rw [List.cons_append, replaceAll_cons_no_match _ _ _ hsw,
      ih (fun d hd => ha d (List.mem_cons_of_mem _ hd))]
    rfl

theorem replaceAll_head_match (p0 : Char) (ps x : List Char) :
    replaceAll (p0 :: ps) ((p0 :: ps) ++ x) = replaceAll (p0 :: ps) x := by
  show replaceAllGo (p0 :: ps) ((ps ++ x).length + 1) (p0 :: (ps ++ x)) = _
  have hsw : startsWith (p0 :: ps) (p0 :: (ps ++ x)) = true := startsWith_append_self ..
  simp only [replaceAllGo, hsw, List.isEmpty_cons, Bool.not_false, Bool.and_self, if_true]
  have hd : (ps ++ x).drop ((p0 :: ps).length - 1) = x := by
    simp only [List.length_cons, Nat.add_sub_cancel]
    exact List.drop_left ..
  rw [hd]
  exact replaceAllGo_fuel (p0 :: ps) _ _ x (by simp) (le_refl _)

theorem mem_replaceAllGo (pat : List Char) :
    ∀ fuel (l : List Char) c, c ∈ replaceAllGo pat fuel l → c ∈ l := by
  intro fuel
  induction fuel with
  | zero => exact fun l c h => h
  | succ f ih =>
    intro l c h
    cases l with
    | nil => simp [replaceAllGo] at h
    | cons d rest =>
      by_cases hc : (startsWith pat (d :: rest) && !pat.isEmpty) = true
      · rw [show replaceAllGo pat (f + 1) (d :: rest)
            = replaceAllGo pat f (rest.drop (pat.length - 1)) from by simp [replaceAllGo, hc]] at h
        exact List.mem_cons_of_mem _ (List.mem_of_mem_drop (ih _ c h))
      · rw [show replaceAllGo pat (f + 1) (d :: rest)
            = d :: replaceAllGo pat f rest from by simp [replaceAllGo, hc]] at h
        rcases List.mem_cons.mp h with h1 | h2
        · exact h1 ▸ List.mem_cons_self ..
        · exact List.mem_cons_of_mem _ (ih _ c h2)

theorem mem_replaceAll (pat l : List Char) (c : Char) (h : c ∈ replaceAll pat l) : c ∈ l :=
  mem_replaceAllGo pat _ l c h

/-! ### Lemmas about stripping and brace slicing -/

theorem dropWhile_append_cons (p : Char → Bool) (a : List Char) (x : Char) (xs : List Char)
    (hx : p x = false) :
    List.dropWhile p (a ++ x :: xs) = List.dropWhile p a ++ x :: xs := by
  induction a with
  | nil => simp [List.dropWhile_cons, hx]
  | cons c a' ih =>
    by_cases hc : p c = true
    · simp [List.dropWhile_cons, hc, ih]
    · simp [List.dropWhile_cons, hc]

theorem stripL_append_cons (a : List Char) (x : Char) (xs : List Char)
    (hx : isPySpace x = false) :
    stripL (a ++ x :: xs) = stripL a ++ x :: xs :=
  dropWhile_append_cons _ a x xs hx

theorem stripR_append_left (a' : List Char) (x : Char) (b : List Char)
    (hx : isPySpace x = false) :
    stripR ((a' ++ [x]) ++ b) = (a' ++ [x]) ++ stripR b := by
  unfold stripR
  have h1 : ((a' ++ [x]) ++ b).reverse = b.reverse ++ x :: a'.reverse := by simp
  rw [h1, dropWhile_append_cons _ _ _ _ hx]
  simp

theorem mem_stripL (a : List Char) (c : Char) (h : c ∈ stripL a) : c ∈ a :=
  (List.dropWhile_suffix isPySpace).sublist.subset h

theorem mem_stripR (a : List Char) (c : Char) (h : c ∈ stripR a) : c ∈ a := by
  unfold stripR at h
  rw [List.mem_reverse] at h
  exact List.mem_reverse.mp ((List.dropWhile_suffix isPySpace).sublist.subset h)

theorem pyStrip_shape (u m w : List Char) (c0 : Char) (mt : List Char) (x : Char)
    (mi : List Char) (hm1 : m = c0 :: mt) (hc0 : isPySpace c0 = false)
    (hm2 : m = mi ++ [x]) (hx : isPySpace x = false) :
    pyStrip (u ++ m ++ w) = stripL u ++ m ++ stripR w := by
  unfold pyStrip
  have hL : stripL (u ++ m ++ w) = stripL u ++ m ++ w := by
    rw [hm1]
    have := stripL_append_cons u c0 (mt ++ w) hc0
    simpa [List.append_assoc] using this
  rw [hL, hm2]
  have h2 := stripR_append_left (stripL u ++ mi) x w hx
  simpa [List.append_assoc] using h2

theorem findIdx_append_first (p : Char → Bool) (a : List Char) (x : Char) (xs : List Char)
    (ha : ∀ c ∈ a, p c = false) (hx : p x = true) :
    List.findIdx p (a ++ x :: xs) = a.length := by
  induction a with
  | nil => simp [List.findIdx_cons, hx]
  | cons c a' ih =>
    have hc : p c = false := ha c (List.mem_cons_self ..)
    simp [List.findIdx_cons, hc, ih fun d hd => ha d (List.mem_cons_of_mem _ hd)]

/-- Under the shape `u ++ j ++ w` with braces only inside `j`, which itself
starts with the opening brace and ends with the closing brace, the brace
slice recovers exactly `j`, so the parser returns the decoded object. -/
theorem parse_of_shape (raw u j w : List Char) (a : Json)
    (hu : ∀ c ∈ u, c ≠ lbrace ∧ c ≠ rbrace)
    (hw : ∀ c ∈ w, c ≠ lbrace ∧ c ≠ rbrace)
    (hjh : ∃ t, j = lbrace :: t) (hjl : ∃ t, j = t ++ [rbrace])
    (hload : jsonLoads j = some a) (hfields : checkFields a = some true)
    (hclean : cleanedText raw = u ++ j ++ w) :
    parse_assessment raw = a := by
  obtain ⟨jt, hjh⟩ := hjh
  obtain ⟨ji, hjl⟩ := hjl
  have hjlen : 1 ≤ j.length := by rw [hjh]; simp
  have hmemL : lbrace ∈ u ++ j ++ w := by
    rw [hjh]; simp
  have hmemR : rbrace ∈ u ++ j ++ w := by
    rw [hjl]; simp
  have hany1 : ((u ++ j ++ w).any fun c => c = lbrace) = true :=
    List.any_eq_true.mpr ⟨lbrace, hmemL, by simp⟩
  have hany2 : ((u ++ j ++ w).any fun c => c = rbrace) = true :=
    List.any_eq_true.mpr ⟨rbrace, hmemR, by simp⟩
  have hfirst : firstLbrace (u ++ j ++ w) = u.length := by
    unfold firstLbrace
    rw [hjh, List.append_assoc, List.cons_append]
    exact findIdx_append_first _ u lbrace _
      (fun c hc => by simp [(hu c hc).1]) (by simp)
  have hlast : lastRbrace (u ++ j ++ w) = u.length + j.length - 1 := by
    unfold lastRbrace
    have hrev : (u ++ j ++ w).reverse = w.reverse ++ rbrace :: (ji.reverse ++ u.reverse) := by
      rw [hjl]; simp
    have hidx : (u ++ j ++ w).reverse.findIdx (fun c => c = rbrace) = w.length := by
      rw [hrev]
      have := findIdx_append_first (fun c => decide (c = rbrace)) w.reverse rbrace
        (ji.reverse ++ u.reverse)
        (fun c hc => by simp [(hw c (List.mem_reverse.mp hc)).2]) (by simp)
      simpa using this
    rw [hidx]
    simp only [List.length_append]
    omega
  have hcand : jsonCandidate (u ++ j ++ w) = j := by
    unfold jsonCandidate
    rw [hfirst, hlast]
    have hdrop : (u ++ j ++ w).drop u.length = j ++ w := by
      rw [List.append_assoc]
      exact List.drop_left ..
    rw [hdrop]
    have htake : u.length + j.length - 1 + 1 - u.length = j.length := by omega
    rw [htake]
    exact List.take_left ..
  unfold parse_assessment
  rw [hclean]
  simp only [hany1, hany2, Bool.and_self, if_true, hcand, hload, hfields]

/-! ### Specialised fence-removal lemmas -/

theorem replaceAll_jsonTag_clean (a x : List Char) (ha : ∀ c ∈ a, c ≠ btick) :
    replaceAll patJsonTag (a ++ x) = a ++ replaceAll patJsonTag x :=
  replaceAll_clean_append _ a x ha

theorem replaceAll_ticks_clean (a x : List Char) (ha : ∀ c ∈ a, c ≠ btick) :
    replaceAll patTicks (a ++ x) = a ++ replaceAll patTicks x :=
  replaceAll_clean_append _ a x ha

theorem replaceAll_jsonTag_self (x : List Char) :
    replaceAll patJsonTag (patJsonTag ++ x) = replaceAll patJsonTag x :=
  replaceAll_head_match _ _ x

theorem replaceAll_ticks_self (x : List Char) :
    replaceAll patTicks (patTicks ++ x) = replaceAll patTicks x :=
  replaceAll_head_match _ _ x

theorem replaceAll_jsonTag_skip_ticks (z : List Char) :
    replaceAll patJsonTag (patTicks ++ (lbrace :: z))
      = patTicks ++ replaceAll patJsonTag (lbrace :: z) := by
  have h1 : startsWith patJsonTag (btick :: btick :: btick :: lbrace :: z) = false := rfl
  have h2 : startsWith patJsonTag (btick :: btick :: lbrace :: z) = false := rfl
  have h3 : startsWith patJsonTag (btick :: lbrace :: z) = false := rfl
  show replaceAll patJsonTag (btick :: btick :: btick :: lbrace :: z) = _
  rw [replaceAll_cons_no_match _ _ _ h1, replaceAll_cons_no_match _ _ _ h2,
    replaceAll_cons_no_match _ _ _ h3]
  rfl

/-! ### Claim C5 -/

/-- C5 (amended): wrapping a decodable JSON object text in code fences (with
or without the `json` tag) and surrounding prose survives the extraction
pipeline and yields exactly the embedded object — provided the prose carries
no brace and no backtick characters (and the object text no backticks),
which the slice-and-de-fence algorithm needs. -/
theorem fence_roundtrip (p1 p2 j : List Char) (a : Json) (tag : Bool)
    (hp1t : ∀ c ∈ p1, c ≠ btick) (hp2t : ∀ c ∈ p2, c ≠ btick)
    (hjt : ∀ c ∈ j, c ≠ btick)
    (hp1b : ∀ c ∈ p1, c ≠ lbrace ∧ c ≠ rbrace)
    (hp2b : ∀ c ∈ p2, c ≠ lbrace ∧ c ≠ rbrace)
    (hjh : ∃ t, j = lbrace :: t) (hjl : ∃ t, j = t ++ [rbrace])
    (hload : jsonLoads j = some a) (hfields : checkFields a = some true) :
    parse_assessment (p1 ++ (if tag then patJsonTag else patTicks) ++ j ++ patTicks ++ p2)
      = a := by
  obtain ⟨jt, hjh'⟩ := hjh
  obtain ⟨ji, hjl'⟩ := hjl
  have hbtick_sp : isPySpace btick = false := by decide
  obtain ⟨Ft, hF⟩ : ∃ Ft, (if tag then patJsonTag else patTicks) = btick :: Ft := by
    cases tag
    · exact ⟨[btick, btick], rfl⟩
    · exact ⟨[btick, btick, 'j', 's', 'o', 'n'], rfl⟩
  -- cleanliness of the stripped prose
  have hu1t : ∀ c ∈ stripL p1, c ≠ btick := fun c hc => hp1t c (mem_stripL _ _ hc)
  have hu1b : ∀ c ∈ stripL p1, c ≠ lbrace ∧ c ≠ rbrace :=
    fun c hc => hp1b c (mem_stripL _ _ hc)
  have hw1t : ∀ c ∈ stripR p2, c ≠ btick := fun c hc => hp2t c (mem_stripR _ _ hc)
  have hw1b : ∀ c ∈ stripR p2, c ≠ lbrace ∧ c ≠ rbrace :=
    fun c hc => hp2b c (mem_stripR _ _ hc)
  -- step 1: the outer strip leaves the fenced block intact
  have hstep1 : pyStrip (p1 ++ (if tag then patJsonTag else patTicks) ++ j ++ patTicks ++ p2)
      = stripL p1 ++ ((if tag then patJsonTag else patTicks)
          ++ (j ++ (patTicks ++ stripR p2))) := by
    have h := pyStrip_shape p1 ((if tag then patJsonTag else patTicks) ++ j ++ patTicks) p2
      btick (Ft ++ j ++ patTicks) btick
      ((if tag then patJsonTag else patTicks) ++ j ++ [btick, btick])
      (by rw [hF]; simp) hbtick_sp
      (by simp [patTicks]) hbtick_sp
    simpa [List.append_assoc] using h
  -- step 2: the first replace removes the `json`-tagged opening fence when
  -- present, and leaves a plain opening fence in place
  have hstep2 : replaceAll patJsonTag (stripL p1 ++ ((if tag then patJsonTag else patTicks)
        ++ (j ++ (patTicks ++ stripR p2))))
      = stripL p1 ++ ((if tag then [] else patTicks) ++ (j
          ++ replaceAll patJsonTag (patTicks ++ stripR p2))) := by
    cases tag with
    | true =>
      rw [if_pos rfl, if_pos rfl, replaceAll_jsonTag_clean _ _ hu1t, replaceAll_jsonTag_self,
        replaceAll_jsonTag_clean _ _ hjt, List.nil_append]
    | false =>
      rw [if_neg (by decide), if_neg (by decide), replaceAll_jsonTag_clean _ _ hu1t]
      have hj2 : j ++ (patTicks ++ stripR p2) = lbrace :: (jt ++ (patTicks ++ stripR p2)) := by
        rw [hjh']; simp
      rw [hj2, replaceAll_jsonTag_skip_ticks, ← hj2,
        replaceAll_jsonTag_clean _ _ hjt]
  -- step 3: the second replace removes the remaining fences
  have hstep3 : replaceAll patTicks (stripL p1 ++ ((if tag then [] else patTicks) ++ (j
        ++ replaceAll patJsonTag (patTicks ++ stripR p2))))
      = stripL p1 ++ (j ++ replaceAll patTicks (replaceAll patJsonTag (patTicks ++ stripR p2))) := by
    cases tag with
    | true =>
      rw [if_pos rfl, List.nil_append, replaceAll_ticks_clean _ _ hu1t,
        replaceAll_ticks_clean _ _ hjt]
    | false =>
      rw [if_neg (by decide), replaceAll_ticks_clean _ _ hu1t, replaceAll_ticks_self,
        replaceAll_ticks_clean _ _ hjt]
  -- the characters surviving both replaces carry no braces
  have hq2b : ∀ c ∈ replaceAll patTicks (replaceAll patJsonTag (patTicks ++ stripR p2)),
      c ≠ lbrace ∧ c ≠ rbrace := by
    intro c hc
    have hc1 := mem_replaceAll _ _ _ hc
    have hc2 := mem_replaceAll _ _ _ hc1
    rcases List.mem_append.mp hc2 with h3 | h3
    · simp only [patTicks, List.mem_cons, List.not_mem_nil, or_false] at h3
      rcases h3 with h | h | h <;> subst h <;> exact ⟨by decide, by decide⟩
    · exact hw1b c h3
  -- step 4: the inner strip leaves `j` intact
  have hstep4 : pyStrip (stripL p1 ++ (j
        ++ replaceAll patTicks (replaceAll patJsonTag (patTicks ++ stripR p2))))
      = stripL (stripL p1) ++ j
          ++ stripR (replaceAll patTicks (replaceAll patJsonTag (patTicks ++ stripR p2))) := by
    have h := pyStrip_shape (stripL p1) j
      (replaceAll patTicks (replaceAll patJsonTag (patTicks ++ stripR p2)))
      lbrace jt rbrace ji hjh' (by decide) hjl' (by decide)
    simpa [List.append_assoc] using h
  -- assemble the cleaned text
  have hclean : cleanedText (p1 ++ (if tag then patJsonTag else patTicks) ++ j ++ patTicks ++ p2)
      = stripL (stripL p1) ++ j
          ++ stripR (replaceAll patTicks (replaceAll patJsonTag (patTicks ++ stripR p2))) := by
    unfold cleanedText
    rw [hstep1, hstep2, hstep3, hstep4]
  exact parse_of_shape _ _ _ _ a
    (fun c hc => hu1b c (mem_stripL _ _ hc))
    (fun c hc => hq2b c (mem_stripR _ _ hc))
    ⟨jt, hjh'⟩ ⟨ji, hjl'⟩ hload hfields hclean

/-- The JSON object text embedded by the C5 witness. -/
def jW : List Char :=
  "\x7b\"score\": 90, \"stars\": 5, \"message\": \"Bien!\", \"what_you_did_well\": \"Nice tone\", \"improvement_tip\": \"Shorter answers\"\x7d".data

/-- The decoded value of `jW`. -/
def aW : Json :=
  Json.obj
    [("score".data, Json.num 90), ("stars".data, Json.num 5),
     ("message".data, Json.str "Bien!".data),
     ("what_you_did_well".data, Json.str "Nice tone".data),
     ("improvement_tip".data, Json.str "Shorter answers".data)]

/-- Witness: a tagged fence with brace-free prose on both sides yields
exactly the embedded object. -/
theorem fence_roundtrip_witness :
    parse_assessment ("Sure thing - here you go: ".data ++ patJsonTag ++ jW ++ patTicks
        ++ " hope that helps".data) = aW :=
  fence_roundtrip "Sure thing - here you go: ".data " hope that helps".data jW aW true
    (by decide) (by decide) (by decide) (by decide) (by decide)
    ⟨jW.tail, by decide⟩ ⟨jW.dropLast, by decide⟩ rfl rfl

/-- The C5 counterexample input: a perfectly fenced object followed by prose
that contains a closing brace. -/
def cexInput : List Char :=
  "```json\n\x7b\"score\": 90, \"stars\": 5, \"message\": \"m\", \"what_you_did_well\": \"w\", \"improvement_tip\": \"t\"\x7d\n``` tail\x7d".data

/-- C5 counterexample: with arbitrary prose after the fence — here prose
containing a closing brace — the slice from the first opening brace to the
last closing brace swallows the prose, decoding fails, and the parser
returns the exception fallback instead of the embedded object (score 90). -/
theorem fence_roundtrip_prose_counterexample :
    parse_assessment cexInput = default80
    ∧ scoreOf (parse_assessment cexInput) = some 80
    ∧ scoreOf (parse_assessment cexInput) ≠ some 90 :=
  ⟨rfl, rfl, by decide⟩

end BhashaChat
